import Mathlib

/-!
# Verification of the LI-COR log-file conversion engine

This development embeds the conversion engine of the `licor` repository:
the device/config Schema Registry, the Log Tokenizer, the Row Builder and
the Conversion Orchestrator, together with the Output Adapter boundary
exercised by the Python client (`convert`, `file_to_dataframe`).

The compiled core of the repository is not shipped with the Python client
sources; its behaviour is specified in the project specification and pinned
down by the integration tests.  All definitions below that embed that core
are therefore modelled from the spec, with concrete section markers and
delimiters chosen where the spec leaves them abstract.  A physical log line
is represented as its list of delimiter-separated fields (the byte-level
lexing into fields is kept abstract); the first field of a line plays the
role of the spec's section markers and data-line tags.
-/

deriving instance DecidableEq for Except

namespace Licor

/-- Error taxonomy of the conversion engine (spec §7).
Modelled from the spec: the error kinds `InvalidDeviceConfig`,
`FileNotFound`/`IOError`, `ParseError` (carrying a line location) and
`UnsupportedOutputFormat` of the absent compiled core. -/
inductive ConvError where
  | invalidDeviceConfig
  | fileNotFound
  | parseError (line : Nat)
  | unsupportedOutputFormat
deriving DecidableEq, Repr

/-- Non-fatal warnings accumulated during a conversion (spec §7):
field-coercion warnings (tagged with the observation index and column name)
and the `obs`-monotonicity warning.
Modelled from the spec: warning kinds of the absent compiled core. -/
inductive Warning where
  | fieldCoercion (obs : Int) (col : String)
  | nonMonotonicObs (obs : Int)
deriving DecidableEq, Repr

/-- Column value types (spec §3). -/
inductive ColType where
  | float
  | int
  | text
  | timestamp
deriving DecidableEq, Repr

/-- Source section of a column (spec §3): header, remark, gas-exchange
block or fluorescence block. -/
inductive SrcSection where
  | header
  | remark
  | gasExchange
  | fluorescence
deriving DecidableEq, Repr

/-- One column definition of a schema (spec §3): name, value type, source
section and required flag. -/
structure ColumnDef where
  name : String
  type : ColType
  source : SrcSection
  required : Bool
deriving DecidableEq, Repr

/-- A column schema: ordered sequence of column definitions (spec §3). -/
structure Schema where
  cols : List ColumnDef
deriving DecidableEq, Repr

/-- A typed cell value.  Numeric text is parsed exactly (a float cell
holds the parsed decimal as `mant / 10 ^ scale`; the engine performs no
arithmetic on measurement values, so the exact decimal reading is the
faithful model); text and timestamps are kept as validated, trimmed
strings. -/
inductive Value where
  | vInt (n : Int)
  | vFloat (mant : Int) (scale : Nat)
  | vText (s : String)
  | vTime (s : String)
deriving DecidableEq, Repr

/-- One fully assembled observation (spec §3): keyed by `obs`, mapping each
schema column name to a typed value or null. -/
structure TypedRow where
  obs : Int
  cells : List (String × Option Value)
deriving DecidableEq, Repr

/-- The table returned by the Orchestrator (spec §3): ordered rows sharing
one column schema, with accumulated non-fatal warnings attached as
metadata. -/
structure Table where
  colNames : List String
  rows : List TypedRow
  warnings : List Warning
deriving DecidableEq, Repr

/-- One merged measurement observation produced by the tokenizer: the
observation index and, per measurement subsystem, the association of
in-file layout column names to raw tokens (`none` for a field missing from
a short line, or a whole subsystem line missing for this `obs`). -/
structure RawRecord where
  obs : Int
  gas : Option (List (String × Option String))
  flr : Option (List (String × Option String))
deriving DecidableEq, Repr

/-! ## Numeric and timestamp token parsing

Modelled from the spec: the Row Builder's type coercion parses numeric
text and the instrument's timestamp format; the exact formats are not in
the shipped sources, so decimal numerals (optional sign, integer part,
optional fractional part) and a digits/punctuation timestamp shape are
used. -/

/-- Whitespace characters stripped from tokens. -/
def isSpaceChar (c : Char) : Bool :=
  c = ' ' || c = '\t' || c = '\r' || c = '\n'

/-- Strip leading and trailing whitespace from a character list. -/
def trimChars (cs : List Char) : List Char :=
  ((cs.dropWhile isSpaceChar).reverse.dropWhile isSpaceChar).reverse

/-- Strip surrounding whitespace from a token. -/
def trimTok (s : String) : String :=
  ⟨trimChars s.toList⟩

/-- Value of a decimal digit character, if it is one. -/
def digitVal? (c : Char) : Option Nat :=
  if c.isDigit then some (c.toNat - 48) else none

/-- Decimal value of a list of digit characters (`none` on a non-digit). -/
def digitsVal? (cs : List Char) : Option Nat :=
  cs.foldlM (fun acc c => (digitVal? c).map (fun d => acc * 10 + d)) 0

/-- Parse a decimal numeral (optional sign, digits, optional `.` and
fraction digits) to its exact scaled-decimal reading
`(mantissa, scale)` standing for `mantissa / 10 ^ scale`; `none` if the
token is not a well-formed numeral. -/
def parseDecimal? (s : String) : Option (Int × Nat) :=
  let cs := trimChars s.toList
  let (sign, body) : Int × List Char :=
    match cs with
    | '-' :: rest => (-1, rest)
    | '+' :: rest => (1, rest)
    | _ => (1, cs)
  let (intPart, rest) := body.span (·.isDigit)
  match rest with
  | [] =>
    match digitsVal? intPart with
    | some n => if intPart.isEmpty then none else some (sign * (n : Int), 0)
    | none => none
  | '.' :: fracPart =>
    if intPart.isEmpty && fracPart.isEmpty then none
    else
      match digitsVal? intPart, digitsVal? fracPart with
      | some n, some f =>
        some (sign * ((n * 10 ^ fracPart.length + f : Nat) : Int),
              fracPart.length)
      | _, _ => none
  | _ => none

/-- Parse an integer numeral (optional sign, digits) from a token. -/
def parseInt? (s : String) : Option Int :=
  let cs := trimChars s.toList
  let (sign, body) : Int × List Char :=
    match cs with
    | '-' :: rest => (-1, rest)
    | '+' :: rest => (1, rest)
    | _ => (1, cs)
  if body.isEmpty then none
  else (digitsVal? body).map (fun n => sign * (n : Int))

/-- Shape check for a timestamp token: nonempty, made of digits and the
separators `-`, `:`, `/`, `.` and space. -/
def isTimestampTok (s : String) : Bool :=
  !s.toList.isEmpty && s.toList.all (fun c =>
    c.isDigit || c = '-' || c = ':' || c = '/' || c = '.' || c = ' ')

/-- Decimal digit character of a digit value. -/
def digitChar (n : Nat) : Char :=
  Char.ofNat (48 + n)

/-- Decimal digit characters of a natural number (fuel-driven). -/
def natCharsAux (fuel n : Nat) : List Char :=
  match fuel with
  | 0 => []
  | f + 1 =>
    if n < 10 then [digitChar n]
    else natCharsAux f (n / 10) ++ [digitChar (n % 10)]

/-- Render a natural number in decimal. -/
def natStr (n : Nat) : String :=
  ⟨natCharsAux (n + 1) n⟩

/-- Render an integer in decimal. -/
def intStr (i : Int) : String :=
  match i with
  | .ofNat n => natStr n
  | .negSucc n => ⟨'-' :: (natStr (n + 1)).toList⟩

/-- Render a scaled decimal `mant / 10 ^ scale`. -/
def decStr (mant : Int) (scale : Nat) : String :=
  if scale = 0 then intStr mant
  else intStr mant ++ "e-" ++ natStr scale

/-! ## Schema Registry (spec §4.1)

Modelled from the spec: the static catalog mapping (device, config) to a
column schema.  The only registered pair in the observed system is
`("6800", "fluorometer")`; its schema carries the integer `obs` column and
the gas-exchange and fluorescence columns named by the spec's scenarios. -/

/-- Column schema registered for device "6800" with config "fluorometer".
Modelled from the spec: `obs` is integer-typed and always present; the
gas-exchange columns `A`, `E`, `Ca`, `Ci`, `gsw` and fluorescence columns
`PhiPS2`, `ETR`, `NPQ` are those named in the spec's scenarios.  The `obs`
column is the join key and is filled from the record's key, so its listed
source section is nominal. -/
def schema6800Fluorometer : Schema :=
  ⟨[⟨"obs", .int, .gasExchange, true⟩,
    ⟨"A", .float, .gasExchange, false⟩,
    ⟨"E", .float, .gasExchange, false⟩,
    ⟨"Ca", .float, .gasExchange, false⟩,
    ⟨"Ci", .float, .gasExchange, false⟩,
    ⟨"gsw", .float, .gasExchange, false⟩,
    ⟨"PhiPS2", .float, .fluorescence, false⟩,
    ⟨"ETR", .float, .fluorescence, false⟩,
    ⟨"NPQ", .float, .fluorescence, false⟩]⟩

/-- The Schema Registry: a static, declarative table keyed by
(device, config) (spec §9 "schema as data, not code").
Modelled from the spec: only `("6800", "fluorometer")` is implemented. -/
def registry : List ((String × String) × Schema) :=
  [(("6800", "fluorometer"), schema6800Fluorometer)]

/-- Whether a (device, config) pair is registered. -/
def supported (device config : String) : Bool :=
  (registry.find? (fun p => p.1 == (device, config))).isSome

/-- Registry lookup (spec §4.1): returns the schema for a registered
(device, config) pair, or fails `InvalidDeviceConfig` for every
unsupported pair — unimplemented-but-plausible and entirely unknown pairs
alike. -/
def lookup (device config : String) : Except ConvError Schema :=
  match registry.find? (fun p => p.1 == (device, config)) with
  | some p => .ok p.2
  | none => .error .invalidDeviceConfig

/-! ## Log Tokenizer (spec §4.2)

Modelled from the spec: a state machine `Header → Remarks → DataBlock*`
over the lines of the file.  The spec leaves the concrete section markers
and tags abstract; here a line is its field list and the first field acts
as the marker/tag:

  * `"[Remarks]"` switches to the remarks section (also usable from a data
    block, for LI-COR mode changes);
  * `"[Data]"` switches to a data block;
  * inside a data block, `"GasExCols:"` / `"FlrCols:"` redeclare the
    in-file column layout of the gas-exchange / fluorescence subsystem
    (field names in order, first name must be `obs`);
  * `"GasEx:"` / `"Flr:"` carry one measurement line of the respective
    subsystem, fields in the order of the active layout, first field the
    `obs` index;
  * any other line inside a data block is unclassifiable and is a fatal
    `ParseError` carrying the line number;
  * lines in the header and remarks sections are free-text metadata.

Same-`obs` lines are buffered and merged into one `RawRecord`; a data line
with fewer fields than the active layout yields `none` for the missing
trailing fields plus a recorded coercion warning; a new observation index
smaller than the previously started one records a non-fatal monotonicity
warning, and records stay in first-seen file order. -/

/-- Tokenizer section state (spec §9: explicit finite-state machine). -/
inductive TokState where
  | header
  | remarks
  | data
deriving DecidableEq, Repr

/-- Tokenizer state: current section, active per-subsystem layouts, merged
records in first-seen `obs` order, accumulated warnings, the log of `obs`
values of all processed data lines (in file order), the `obs` of the last
newly started record, and the current line number. -/
structure TokSt where
  state : TokState
  gasLayout : List String
  flrLayout : List String
  recs : List RawRecord
  warns : List Warning
  obsLog : List Int
  lastObs : Option Int
  lineNo : Nat
deriving DecidableEq, Repr

/-- Initial tokenizer state: the file starts in the header section. -/
def initSt : TokSt :=
  ⟨.header, [], [], [], [], [], none, 0⟩

/-- Associate layout names with a line's tokens, in order; names beyond
the end of the token list get `none` (missing trailing fields), tokens
beyond the end of the layout are dropped. -/
def padZip : List String → List String → List (String × Option String)
  | [], _ => []
  | n :: ns, [] => (n, none) :: padZip ns []
  | n :: ns, t :: ts => (n, some t) :: padZip ns ts

/-- Fresh record from one data line of one subsystem. -/
def mkRec (o : Int) (isGas : Bool) (fields : List (String × Option String)) :
    RawRecord :=
  if isGas then ⟨o, some fields, none⟩ else ⟨o, none, some fields⟩

/-- Merge a data line into the buffered record with the same `obs`:
the subsystem's fields are (re)set, the other subsystem is untouched. -/
def setSec (r : RawRecord) (isGas : Bool)
    (fields : List (String × Option String)) : RawRecord :=
  if isGas then { r with gas := some fields } else { r with flr := some fields }

/-- Monotonicity warning for a newly started observation (spec §4.2): a
new `obs` smaller than the previously started one is a non-fatal
structural warning. -/
def monoWarns (lastObs : Option Int) (o : Int) : List Warning :=
  match lastObs with
  | some m => if o < m then [.nonMonotonicObs o] else []
  | none => []

/-- Process one data line of one subsystem: requires an active layout and
an integer `obs` first field (else fatal `ParseError`); pads short lines
with `none` and records one coercion warning per missing trailing field;
merges into the buffered same-`obs` record if one exists, otherwise
appends a new record at the end (file order). -/
def dataStep (st : TokSt) (isGas : Bool) (layout toks : List String) :
    Except ConvError TokSt :=
  if layout.isEmpty then .error (.parseError st.lineNo)
  else
    match toks.head? with
    | none => .error (.parseError st.lineNo)
    | some t0 =>
      match parseInt? t0 with
      | none => .error (.parseError st.lineNo)
      | some o =>
        if o ∈ st.recs.map (·.obs) then
          .ok { st with
                  recs := st.recs.map
                    (fun r =>
                      if r.obs = o then setSec r isGas (padZip layout toks)
                      else r),
                  warns := st.warns ++
                    (layout.drop toks.length).map
                      (fun c => Warning.fieldCoercion o c),
                  obsLog := st.obsLog ++ [o] }
        else
          .ok { st with
                  recs := st.recs ++ [mkRec o isGas (padZip layout toks)],
                  warns := st.warns ++
                    (layout.drop toks.length).map
                      (fun c => Warning.fieldCoercion o c) ++
                    monoWarns st.lastObs o,
                  obsLog := st.obsLog ++ [o],
                  lastObs := some o }

/-- One transition of the tokenizer state machine on one line. -/
def step (st0 : TokSt) (line : List String) : Except ConvError TokSt :=
  let st := { st0 with lineNo := st0.lineNo + 1 }
  match line.head? with
  | none => .ok st
  | some h =>
    match st.state with
    | .header =>
      if h = "[Remarks]" then .ok { st with state := .remarks }
      else if h = "[Data]" then .ok { st with state := .data }
      else .ok st
    | .remarks =>
      if h = "[Data]" then .ok { st with state := .data }
      else .ok st
    | .data =>
      if h = "[Remarks]" then .ok { st with state := .remarks }
      else if h = "[Data]" then .ok st
      else if h = "GasExCols:" then
        if line.tail.head? = some "obs" then
          .ok { st with gasLayout := line.tail }
        else .error (.parseError st.lineNo)
      else if h = "FlrCols:" then
        if line.tail.head? = some "obs" then
          .ok { st with flrLayout := line.tail }
        else .error (.parseError st.lineNo)
      else if h = "GasEx:" then dataStep st true st.gasLayout line.tail
      else if h = "Flr:" then dataStep st false st.flrLayout line.tail
      else .error (.parseError st.lineNo)

/-- Run the tokenizer from a given state over the remaining lines. -/
def runTokFrom (st : TokSt) : List (List String) → Except ConvError TokSt
  | [] => .ok st
  | l :: ls =>
    match step st l with
    | .error e => .error e
    | .ok st' => runTokFrom st' ls

/-- Run the tokenizer over a whole file. -/
def runTok (lines : List (List String)) : Except ConvError TokSt :=
  runTokFrom initSt lines

/-! ## Row Builder — type coercion (spec §4.3)

Modelled from the spec: applies the registry schema to the tokenizer's
merged records.  Schemas are config-authoritative for output shape:
every schema column yields a cell (null when its section or field is
absent), raw fields outside the schema are dropped.  A coercion failure
nulls the cell and records a `FieldCoercionWarning` without discarding the
record. -/

/-- Find a field by column name in a record section's field list. -/
def lookupField (fields : List (String × Option String)) (name : String) :
    Option String :=
  match fields.find? (fun p => p.1 == name) with
  | some p => p.2
  | none => none

/-- Coerce one raw token to a column's declared type; `none` means the
token failed coercion (nulled downstream with a warning). Text is copied
trimmed and never fails. -/
def coerce (ty : ColType) (tok : String) : Option Value :=
  match ty with
  | .int => (parseInt? tok).map .vInt
  | .float => (parseDecimal? tok).map (fun p => .vFloat p.1 p.2)
  | .text => some (.vText (trimTok tok))
  | .timestamp =>
    if isTimestampTok (trimTok tok) then some (.vTime (trimTok tok)) else none

/-- Value of one schema column for one record, with any coercion warning.
The `obs` column is filled from the record's join key; other columns are
looked up in the record section matching their source (header/remark
sourced columns have no record section and are null; the modelled
registry schema declares none). -/
def cellOf (r : RawRecord) (c : ColumnDef) : Option Value × List Warning :=
  if c.name = "obs" then (some (.vInt r.obs), [])
  else
    let sect : Option (List (String × Option String)) :=
      match c.source with
      | .gasExchange => r.gas
      | .fluorescence => r.flr
      | .header => none
      | .remark => none
    match sect with
    | none => (none, [])
    | some fields =>
      match lookupField fields c.name with
      | none => (none, [])
      | some tok =>
        match coerce c.type tok with
        | some v => (some v, [])
        | none => (none, [.fieldCoercion r.obs c.name])

/-- Assemble one typed row from one record, cells in schema column order,
together with the coercion warnings it produced. -/
def buildRow (s : Schema) (r : RawRecord) : TypedRow × List Warning :=
  let out := s.cols.map (fun c => (c.name, cellOf r c))
  (⟨r.obs, out.map (fun p => (p.1, p.2.1))⟩, (out.map (fun p => p.2.2)).flatten)

/-- Build all typed rows from the tokenizer's records, in record order. -/
def build (s : Schema) (recs : List RawRecord) :
    List TypedRow × List Warning :=
  let pairs := recs.map (buildRow s)
  (pairs.map (·.1), (pairs.map (·.2)).flatten)

/-! ## Filesystem model and Conversion Orchestrator (spec §4.4)

The filesystem is an association of paths to file contents (a file being
its list of lines, each line its list of fields).  `convert` also returns
the list of paths it attempted to access, so that "no file access before
the registry check" is a provable property of the embedding. -/

/-- Filesystem model: association of paths to line lists. -/
structure FS where
  files : List (String × List (List String))
deriving DecidableEq, Repr

/-- Read a file, if present. -/
def FS.readFile (fs : FS) (p : String) : Option (List (List String)) :=
  (fs.files.find? (fun q => q.1 == p)).map (·.2)

/-- Write (or overwrite) a file. -/
def FS.write (fs : FS) (p : String) (content : List (List String)) : FS :=
  ⟨(p, content) :: fs.files⟩

/-- The Conversion Orchestrator (spec §4.4).
Modelled from the spec: validates (device, config) against the Registry
first — before touching the file —, then opens the input file (failing
`FileNotFound`), then drives the Tokenizer and the Row Builder, returning
the table with accumulated non-fatal warnings attached.  The second
component is the access log: every path the call attempted to open. -/
def convert (fs : FS) (path device config : String) :
    Except ConvError Table × List String :=
  match lookup device config with
  | .error e => (.error e, [])
  | .ok schema =>
    match fs.readFile path with
    | none => (.error .fileNotFound, [path])
    | some lines =>
      match runTok lines with
      | .error e => (.error e, [path])
      | .ok st =>
        (.ok ⟨schema.cols.map (·.name), (build schema st.recs).1,
              st.warns ++ (build schema st.recs).2⟩, [path])

/-! ## Output Adapter boundary (spec §6, §4.4)

Modelled from the spec and the Python client tests: the adapter receives
the finished Table and a requested representation; only the in-memory
table forms `"polars"` and `"pandas"` and the columnar file sink are
supported, anything else fails `UnsupportedOutputFormat` — at this
boundary only, never inside the core. -/

/-- Dataframe adapter: hand the table to the host language as the
requested dataframe kind. -/
def toDataFrame (t : Table) (format : String) : Except ConvError Table :=
  if format = "polars" ∨ format = "pandas" then .ok t
  else .error .unsupportedOutputFormat

/-- `file_to_dataframe` of the Python client: convert, then adapt the
resulting table to the requested dataframe representation. -/
def file_to_dataframe (fs : FS) (path format device config : String) :
    Except ConvError Table × List String :=
  match convert fs path device config with
  | (.error e, log) => (.error e, log)
  | (.ok t, log) => (toDataFrame t format, log)

/-- Serialize a table to a columnar output file: a header line of column
names followed by one line per row (cells rendered, nulls empty).
Modelled from the spec: the columnar file sink of the Output Adapter. -/
def serializeTable (t : Table) : List (List String) :=
  t.colNames ::
    t.rows.map (fun r =>
      r.cells.map (fun c =>
        match c.2 with
        | some (.vInt n) => intStr n
        | some (.vFloat m k) => decStr m k
        | some (.vText s) => s
        | some (.vTime s) => s
        | none => ""))

/-- Size in bytes of a serialized file: each line contributes its fields'
lengths plus one terminator per line. -/
def fileSize (content : List (List String)) : Nat :=
  (content.map (fun l => (l.map String.length).sum + 1)).sum

/-- `convert` of the Python client: convert the input file and write the
resulting table to the output path.
Modelled from the spec and the client tests: the file-sink form of the
Output Adapter. -/
def convertFile (fs : FS) (path output device config : String) :
    Except ConvError FS × List String :=
  match convert fs path device config with
  | (.error e, log) => (.error e, log)
  | (.ok t, log) => (.ok (fs.write output (serializeTable t)), log)

/-! ## First-seen order -/

/-- Keep the first occurrence of each element, given an already-seen
set. -/
def firstSeenAux (seen : List Int) : List Int → List Int
  | [] => []
  | a :: l =>
    if a ∈ seen then firstSeenAux seen l
    else a :: firstSeenAux (a :: seen) l

/-- The distinct elements of a list, in first-seen order. -/
def firstSeen (l : List Int) : List Int :=
  firstSeenAux [] l

/-! ## Sample log file

Modelled from the spec: the repository's sample log
`2025-05-30-0948_logdata_flr_kinetics_and_gas_ex1` ships with the
repository but not with the client sources, so a representative instance
of its documented structure is used: header metadata, remarks, then a data
block with interleaved gas-exchange and fluorescence lines joined by
`obs`. -/

/-- Path of the sample fluorometer log. -/
def samplePath : String :=
  "../example_data/2025-05-30-0948_logdata_flr_kinetics_and_gas_ex1"

/-- Lines of the sample fluorometer log (fields per line). -/
def sampleLogLines : List (List String) :=
  [["LI-6800", "console ver 2.1"],
   ["[Remarks]"],
   ["flr kinetics and gas exchange"],
   ["[Data]"],
   ["GasExCols:", "obs", "A", "E", "Ca", "Ci", "gsw"],
   ["FlrCols:", "obs", "PhiPS2", "ETR", "NPQ"],
   ["GasEx:", "1", "12.5", "0.003", "420.1", "300.2", "0.25"],
   ["Flr:", "1", "0.65", "120.3", "1.1"],
   ["GasEx:", "2", "13.1", "0.004", "419.8", "298.7", "0.26"],
   ["Flr:", "2", "0.63", "118.9", "1.2"],
   ["GasEx:", "3", "12.9", "0.004", "420.0", "299.5", "0.24"],
   ["Flr:", "3", "0.64", "119.5", "1.15"]]

/-- Filesystem holding the sample log. -/
def sampleFS : FS :=
  ⟨[(samplePath, sampleLogLines)]⟩

/-- The table obtained by converting the sample log with device "6800"
and config "fluorometer" (the conversion succeeds, so the fallback arm is
never taken). -/
def sampleTable : Table :=
  match convert sampleFS samplePath "6800" "fluorometer" with
  | (.ok t, _) => t
  | _ => ⟨[], [], []⟩

/-- The tokenizer state after running over the sample log (the run
succeeds, so the fallback arm is never taken). -/
def sampleTokSt : TokSt :=
  match runTok sampleLogLines with
  | .ok st => st
  | .error _ => initSt

/-! ## Properties of first-seen order -/

theorem mem_firstSeenAux {a : Int} {seen l : List Int} :
    a ∈ firstSeenAux seen l ↔ a ∈ l ∧ a ∉ seen := by
  induction l generalizing seen with
  | nil => simp [firstSeenAux]
  | cons b l ih =>
    by_cases hb : b ∈ seen
    · simp only [firstSeenAux, if_pos hb, ih, List.mem_cons]
      by_cases hab : a = b
      · subst hab; simp [hb]
      · simp [hab]
    · simp only [firstSeenAux, if_neg hb, List.mem_cons, ih]
      by_cases hab : a = b
      · subst hab; simp [hb]
      · simp [hab]

theorem nodup_firstSeenAux (seen l : List Int) :
    (firstSeenAux seen l).Nodup := by
  induction l generalizing seen with
  | nil => simp [firstSeenAux]
  | cons b l ih =>
    by_cases hb : b ∈ seen
    · simpa only [firstSeenAux, if_pos hb] using ih seen
    · simp only [firstSeenAux, if_neg hb]
      refine List.nodup_cons.mpr ⟨?_, ih (b :: seen)⟩
      intro hmem
      exact (mem_firstSeenAux.mp hmem).2 (List.mem_cons_self b seen)

theorem firstSeenAux_append (seen l : List Int) (a : Int) :
    firstSeenAux seen (l ++ [a]) =
      firstSeenAux seen l ++ (if a ∈ seen ∨ a ∈ l then [] else [a]) := by
  induction l generalizing seen with
  | nil => by_cases h : a ∈ seen <;> simp [firstSeenAux, h]
  | cons b l ih =>
    rw [List.cons_append]
    by_cases hb : b ∈ seen
    · simp only [firstSeenAux, if_pos hb, ih]
      congr 1
      have hiff : (a ∈ seen ∨ a ∈ l) ↔ (a ∈ seen ∨ a ∈ b :: l) := by
        simp only [List.mem_cons]
        constructor
        · rintro (h | h)
          · exact Or.inl h
          · exact Or.inr (Or.inr h)
        · rintro (h | rfl | h)
          · exact Or.inl h
          · exact Or.inl hb
          · exact Or.inr h
      by_cases hc : a ∈ seen ∨ a ∈ l
      · rw [if_pos hc, if_pos (hiff.mp hc)]
      · rw [if_neg hc, if_neg (fun hx => hc (hiff.mpr hx))]
    · simp only [firstSeenAux, if_neg hb, ih, List.cons_append]
      congr 1
      have hiff : (a ∈ b :: seen ∨ a ∈ l) ↔ (a ∈ seen ∨ a ∈ b :: l) := by
        simp only [List.mem_cons]
        tauto
      by_cases hc : a ∈ b :: seen ∨ a ∈ l
      · rw [if_pos hc, if_pos (hiff.mp hc)]
      · rw [if_neg hc, if_neg (fun hx => hc (hiff.mpr hx))]

theorem mem_firstSeen {a : Int} {l : List Int} :
    a ∈ firstSeen l ↔ a ∈ l := by
  simp [firstSeen, mem_firstSeenAux]

theorem nodup_firstSeen (l : List Int) : (firstSeen l).Nodup :=
  nodup_firstSeenAux [] l

theorem firstSeen_append_of_mem {l : List Int} {a : Int} (h : a ∈ l) :
    firstSeen (l ++ [a]) = firstSeen l := by
  simp [firstSeen, firstSeenAux_append, h]

theorem firstSeen_append_of_not_mem {l : List Int} {a : Int} (h : a ∉ l) :
    firstSeen (l ++ [a]) = firstSeen l ++ [a] := by
  simp [firstSeen, firstSeenAux_append, h]

theorem firstSeen_length_eq_dedup_length (l : List Int) :
    (firstSeen l).length = l.dedup.length := by
  have hperm : List.Perm (firstSeen l) l.dedup := by
    refine (List.perm_ext_iff_of_nodup (nodup_firstSeen l) l.nodup_dedup).mpr ?_
    intro a
    rw [mem_firstSeen, List.mem_dedup]
  exact hperm.length_eq

/-! ## Tokenizer invariants

The central structural invariant: the buffered records are exactly the
distinct observation indices of the processed data lines, in first-seen
order. -/

theorem setSec_obs (r : RawRecord) (isGas : Bool)
    (fields : List (String × Option String)) :
    (setSec r isGas fields).obs = r.obs := by
  unfold setSec
  by_cases h : isGas = true <;> simp [h]

theorem mkRec_obs (o : Int) (isGas : Bool)
    (fields : List (String × Option String)) :
    (mkRec o isGas fields).obs = o := by
  unfold mkRec
  by_cases h : isGas = true <;> simp [h]

theorem dataStep_obs_inv {st st' : TokSt} {isGas : Bool}
    {layout toks : List String}
    (h : dataStep st isGas layout toks = .ok st')
    (hInv : st.recs.map (·.obs) = firstSeen st.obsLog) :
    st'.recs.map (·.obs) = firstSeen st'.obsLog := by
  unfold dataStep at h
  split at h
  · exact absurd h (by simp)
  · split at h
    · exact absurd h (by simp)
    · split at h
      · exact absurd h (by simp)
      · rename_i o ho
        split at h
        · rename_i hmem
          cases h
          simp only [List.map_map]
          have hmap :
              st.recs.map ((fun x => x.obs) ∘
                (fun r => if r.obs = o then setSec r isGas (padZip layout toks)
                  else r)) = st.recs.map (·.obs) := by
            refine List.map_congr_left ?_
            intro r _
            by_cases hro : r.obs = o <;> simp [hro, setSec_obs]
          rw [hmap, hInv]
          have hobs : o ∈ st.obsLog := by
            rw [hInv] at hmem
            exact mem_firstSeen.mp hmem
          rw [firstSeen_append_of_mem hobs]
        · rename_i hmem
          cases h
          simp only [List.map_append, List.map_cons, List.map_nil, mkRec_obs]
          have hobs : o ∉ st.obsLog := by
            intro hc
            exact hmem (hInv ▸ mem_firstSeen.mpr hc)
          rw [hInv, firstSeen_append_of_not_mem hobs]

theorem step_obs_inv {st st' : TokSt} {line : List String}
    (h : step st line = .ok st')
    (hInv : st.recs.map (·.obs) = firstSeen st.obsLog) :
    st'.recs.map (·.obs) = firstSeen st'.obsLog := by
  rcases hl : line.head? with _ | h0 <;>
    rcases hs : st.state with _ | _ | _ <;>
      simp only [step, hl, hs] at h
  case none.header => cases h; exact hInv
  case none.remarks => cases h; exact hInv
  case none.data => cases h; exact hInv
  case some.header =>
    by_cases h1 : h0 = "[Remarks]"
    · simp only [h1, if_pos rfl] at h; cases h; exact hInv
    · simp only [if_neg h1] at h
      by_cases h2 : h0 = "[Data]"
      · simp only [h2, if_pos rfl] at h; cases h; exact hInv
      · simp only [if_neg h2] at h; cases h; exact hInv
  case some.remarks =>
    by_cases h1 : h0 = "[Data]"
    · simp only [h1, if_pos rfl] at h; cases h; exact hInv
    · simp only [if_neg h1] at h; cases h; exact hInv
  case some.data =>
    by_cases h1 : h0 = "[Remarks]"
    · simp only [h1, if_pos rfl] at h; cases h; exact hInv
    · simp only [if_neg h1] at h
      by_cases h2 : h0 = "[Data]"
      · simp only [h2, if_pos rfl] at h; cases h; exact hInv
      · simp only [if_neg h2] at h
        by_cases h3 : h0 = "GasExCols:"
        · simp only [h3, if_pos rfl] at h
          by_cases h3a : line.tail.head? = some "obs"
          · simp only [if_pos h3a] at h; cases h; exact hInv
          · simp only [if_neg h3a] at h; exact absurd h (by simp)
        · simp only [if_neg h3] at h
          by_cases h4 : h0 = "FlrCols:"
          · simp only [h4, if_pos rfl] at h
            by_cases h4a : line.tail.head? = some "obs"
            · simp only [if_pos h4a] at h; cases h; exact hInv
            · simp only [if_neg h4a] at h; exact absurd h (by simp)
          · simp only [if_neg h4] at h
            by_cases h5 : h0 = "GasEx:"
            · simp only [h5, if_pos rfl] at h
              exact dataStep_obs_inv h hInv
            · simp only [if_neg h5] at h
              by_cases h6 : h0 = "Flr:"
              · simp only [h6, if_pos rfl] at h
                exact dataStep_obs_inv h hInv
              · simp only [if_neg h6] at h; exact absurd h (by simp)

theorem runTokFrom_obs_inv {st st' : TokSt} {lines : List (List String)}
    (h : runTokFrom st lines = .ok st')
    (hInv : st.recs.map (·.obs) = firstSeen st.obsLog) :
    st'.recs.map (·.obs) = firstSeen st'.obsLog := by
  induction lines generalizing st with
  | nil =>
    unfold runTokFrom at h
    cases h; exact hInv
  | cons l ls ih =>
    unfold runTokFrom at h
    split at h
    · exact absurd h (by simp)
    · rename_i st1 hstep
      exact ih h (step_obs_inv hstep hInv)

theorem runTok_obs_inv {st : TokSt} {lines : List (List String)}
    (h : runTok lines = .ok st) :
    st.recs.map (·.obs) = firstSeen st.obsLog :=
  runTokFrom_obs_inv h (by simp [initSt, firstSeen, firstSeenAux])

/-! ## Error kinds of the core

The core parser can only fail with `ParseError` (and the orchestrator adds
`InvalidDeviceConfig` and `FileNotFound`); `UnsupportedOutputFormat` is
never produced inside the core. -/

theorem dataStep_error_parseError {st : TokSt} {isGas : Bool}
    {layout toks : List String} {e : ConvError}
    (h : dataStep st isGas layout toks = .error e) :
    e = .parseError st.lineNo := by
  unfold dataStep at h
  split at h
  · cases h; rfl
  · split at h
    · cases h; rfl
    · split at h
      · cases h; rfl
      · split at h
        · exact absurd h (by simp)
        · exact absurd h (by simp)

theorem step_error_parseError {st : TokSt} {line : List String}
    {e : ConvError} (h : step st line = .error e) :
    ∃ n, e = .parseError n := by
  rcases hl : line.head? with _ | h0 <;>
    rcases hs : st.state with _ | _ | _ <;>
      simp only [step, hl, hs] at h
  case none.header => cases h
  case none.remarks => cases h
  case none.data => cases h
  case some.header =>
    by_cases h1 : h0 = "[Remarks]"
    · simp [h1] at h
    · simp only [if_neg h1] at h
      by_cases h2 : h0 = "[Data]"
      · simp [h2] at h
      · simp only [if_neg h2] at h; exact absurd h (by simp)
  case some.remarks =>
    by_cases h1 : h0 = "[Data]"
    · simp [h1] at h
    · simp only [if_neg h1] at h; exact absurd h (by simp)
  case some.data =>
    by_cases h1 : h0 = "[Remarks]"
    · simp [h1] at h
    · simp only [if_neg h1] at h
      by_cases h2 : h0 = "[Data]"
      · simp [h2] at h
      · simp only [if_neg h2] at h
        by_cases h3 : h0 = "GasExCols:"
        · simp only [h3, if_pos rfl] at h
          by_cases h3a : line.tail.head? = some "obs"
          · simp [h3a] at h
          · rw [if_neg h3a] at h
            exact ⟨_, (Except.error.inj h).symm⟩
        · simp only [if_neg h3] at h
          by_cases h4 : h0 = "FlrCols:"
          · simp only [h4, if_pos rfl] at h
            by_cases h4a : line.tail.head? = some "obs"
            · simp [h4a] at h
            · rw [if_neg h4a] at h
              exact ⟨_, (Except.error.inj h).symm⟩
          · simp only [if_neg h4] at h
            by_cases h5 : h0 = "GasEx:"
            · simp only [h5, if_pos rfl] at h
              exact ⟨_, dataStep_error_parseError h⟩
            · simp only [if_neg h5] at h
              by_cases h6 : h0 = "Flr:"
              · simp only [h6, if_pos rfl] at h
                exact ⟨_, dataStep_error_parseError h⟩
              · simp only [if_neg h6] at h
                exact ⟨_, (Except.error.inj h).symm⟩

theorem runTokFrom_error_parseError {st : TokSt}
    {lines : List (List String)} {e : ConvError}
    (h : runTokFrom st lines = .error e) :
    ∃ n, e = .parseError n := by
  induction lines generalizing st with
  | nil => unfold runTokFrom at h; exact absurd h (by simp)
  | cons l ls ih =>
    unfold runTokFrom at h
    split at h
    · rename_i hstep
      cases h
      exact step_error_parseError hstep
    · exact ih h

theorem runTok_error_parseError {lines : List (List String)}
    {e : ConvError} (h : runTok lines = .error e) :
    ∃ n, e = .parseError n :=
  runTokFrom_error_parseError h

theorem lookup_error_of_not_supported {device config : String}
    (h : supported device config = false) :
    lookup device config = .error .invalidDeviceConfig := by
  unfold supported at h
  unfold lookup
  cases hf : registry.find? (fun p => p.1 == (device, config)) with
  | none => rfl
  | some p => rw [hf] at h; simp at h

theorem lookup_ok_of_supported {device config : String}
    (h : supported device config = true) :
    ∃ s, lookup device config = .ok s := by
  unfold supported at h
  unfold lookup
  cases hf : registry.find? (fun p => p.1 == (device, config)) with
  | none => rw [hf] at h; simp at h
  | some p => exact ⟨p.2, rfl⟩

theorem lookup_error_invalid {device config : String} {e : ConvError}
    (h : lookup device config = .error e) :
    e = .invalidDeviceConfig := by
  unfold lookup at h
  split at h
  · exact absurd h (by simp)
  · cases h; rfl

theorem convert_error_kind {fs : FS} {path device config : String}
    {e : ConvError} {log : List String}
    (h : convert fs path device config = (.error e, log)) :
    e ≠ .unsupportedOutputFormat := by
  unfold convert at h
  split at h
  · rename_i hl
    cases h
    rw [lookup_error_invalid hl]
    intro hc
    cases hc
  · split at h
    · cases h
      intro hc
      cases hc
    · split at h
      · rename_i ht
        cases h
        obtain ⟨n, rfl⟩ := runTok_error_parseError ht
        intro hc
        cases hc
      · exact absurd h (by simp)

/-! ## Row Builder lemmas -/

theorem buildRow_obs (s : Schema) (r : RawRecord) :
    (buildRow s r).1.obs = r.obs := rfl

theorem buildRow_cell_names (s : Schema) (r : RawRecord) :
    (buildRow s r).1.cells.map (·.1) = s.cols.map (·.name) := by
  simp [buildRow, List.map_map]

theorem build_rows_obs (s : Schema) (recs : List RawRecord) :
    ((build s recs).1).map (·.obs) = recs.map (·.obs) := by
  simp only [build, List.map_map]
  rfl

theorem build_length (s : Schema) (recs : List RawRecord) :
    ((build s recs).1).length = recs.length := by
  simp [build]

/-! ## Short data lines: missing trailing fields -/

theorem padZip_drop (ns ts : List String) :
    (padZip ns ts).drop ts.length =
      (ns.drop ts.length).map (fun n => (n, (none : Option String))) := by
  induction ns generalizing ts with
  | nil => cases ts <;> simp [padZip]
  | cons n ns ih =>
    cases ts with
    | nil =>
      have h := ih []
      simp only [List.length_nil, List.drop_zero] at h
      simp [padZip, h]
    | cons t ts =>
      simpa [padZip] using ih ts

theorem lookupField_map_none (ns : List String) (name : String) :
    lookupField (ns.map (fun n => (n, (none : Option String)))) name = none := by
  induction ns with
  | nil => rfl
  | cons n ns ih =>
    unfold lookupField at ih ⊢
    by_cases hn : (n == name) = true
    · rw [List.map_cons, List.find?_cons_of_pos _ (by simpa using hn)]
    · rw [List.map_cons, List.find?_cons_of_neg _ (by simpa using hn)]
      exact ih

theorem lookupField_padZip_none {ns ts : List String} {name : String}
    (h1 : name ∉ ns.take ts.length) (h2 : name ∈ ns) :
    lookupField (padZip ns ts) name = none := by
  induction ns generalizing ts with
  | nil => cases h2
  | cons n ns ih =>
    cases ts with
    | nil =>
      have h := padZip_drop (n :: ns) []
      simp only [List.length_nil, List.drop_zero] at h
      rw [h]
      exact lookupField_map_none _ _
    | cons t ts =>
      simp only [List.length_cons, List.take_succ_cons, List.mem_cons,
        not_or] at h1
      obtain ⟨hne, h1'⟩ := h1
      have h2' : name ∈ ns := by
        rcases List.mem_cons.mp h2 with rfl | hmem
        · exact absurd rfl hne
        · exact hmem
      unfold padZip lookupField
      rw [List.find?_cons_of_neg _ (by simpa using fun hc => hne hc.symm)]
      exact ih h1' h2'

theorem cellOf_null {r : RawRecord} {c : ColumnDef}
    {fields : List (String × Option String)}
    (hn : ¬c.name = "obs") (hs : c.source = .gasExchange)
    (hg : r.gas = some fields)
    (hl : lookupField fields c.name = none) :
    cellOf r c = (none, []) := by
  simp [cellOf, hn, hs, hg, hl]

theorem buildRow_cell_mem {s : Schema} (r : RawRecord) {c : ColumnDef}
    (hc : c ∈ s.cols) :
    (c.name, (cellOf r c).1) ∈ (buildRow s r).1.cells := by
  simp only [buildRow]
  exact List.mem_map.mpr ⟨(c.name, cellOf r c),
    List.mem_map.mpr ⟨c, hc, rfl⟩, rfl⟩

theorem dataStep_fresh (st : TokSt) (isGas : Bool)
    (layout toks : List String) {t0 : String} {o : Int}
    (hl : layout.isEmpty = false)
    (ht : toks.head? = some t0)
    (hp : parseInt? t0 = some o)
    (hm : o ∉ st.recs.map (·.obs)) :
    dataStep st isGas layout toks = .ok { st with
      recs := st.recs ++ [mkRec o isGas (padZip layout toks)],
      warns := st.warns ++
        (layout.drop toks.length).map (fun c => Warning.fieldCoercion o c) ++
        monoWarns st.lastObs o,
      obsLog := st.obsLog ++ [o],
      lastObs := some o } := by
  simp [dataStep, hl, ht, hp, hm]

theorem step_data_gasEx {st : TokSt} (toks : List String)
    (hs : st.state = .data) :
    step st ("GasEx:" :: toks) =
      dataStep { st with lineNo := st.lineNo + 1 } true st.gasLayout toks := by
  simp [step, hs]

/-! ## Filesystem lemmas -/

theorem FS.readFile_write_self (fs : FS) (p : String)
    (content : List (List String)) :
    (fs.write p content).readFile p = some content := by
  simp [FS.write, FS.readFile, List.find?]

/-! ## Claims -/

/-- Claim C1: For every call to `convert` where the (device, config) pair is
not registered in the Schema Registry, the call fails with
`InvalidDeviceConfig` and no file access happens: the access log is empty,
for every filesystem and every (possibly invalid) path. -/
theorem convert_unregistered_fails_before_file_access
    (fs : FS) (path device config : String)
    (h : supported device config = false) :
    convert fs path device config = (.error .invalidDeviceConfig, []) := by
  unfold convert
  rw [lookup_error_of_not_supported h]

theorem convert_unregistered_fails_before_file_access_witness :
    supported "invalid" "fluorometer" = false ∧
    convert sampleFS samplePath "invalid" "fluorometer" =
      (.error .invalidDeviceConfig, []) :=
  ⟨by decide,
    convert_unregistered_fails_before_file_access sampleFS samplePath
      "invalid" "fluorometer" (by decide)⟩

/-- Claim C2: Every unsupported (device, config) pair fails Registry lookup
with `InvalidDeviceConfig`, and the syntactically plausible but
unimplemented pair ("6400", "fluorometer") produces exactly the same
error as the entirely unknown pair ("invalid", "fluorometer"): the two
cases are indistinguishable by error kind. -/
theorem lookup_unsupported_uniform_error
    (device config : String) (h : supported device config = false) :
    lookup device config = .error .invalidDeviceConfig ∧
    lookup "6400" "fluorometer" = lookup "invalid" "fluorometer" :=
  ⟨lookup_error_of_not_supported h, by decide⟩

theorem lookup_unsupported_uniform_error_witness :
    supported "6400" "fluorometer" = false ∧
    (lookup "6400" "fluorometer" = .error .invalidDeviceConfig ∧
      lookup "6400" "fluorometer" = lookup "invalid" "fluorometer") :=
  ⟨by decide, lookup_unsupported_uniform_error "6400" "fluorometer" (by decide)⟩

/-- Claim C3: For every supported (device, config) pair and every path at
which no file can be opened, `convert` fails with `FileNotFound` — not
`ParseError` — after the registry lookup (which succeeded) and before any
parsing; the access log records the attempted open. -/
theorem convert_missing_file_fails_fileNotFound
    (fs : FS) (path device config : String)
    (hsup : supported device config = true)
    (hfile : fs.readFile path = none) :
    convert fs path device config = (.error .fileNotFound, [path]) := by
  obtain ⟨s, hs⟩ := lookup_ok_of_supported hsup
  unfold convert
  rw [hs, hfile]

theorem convert_missing_file_fails_fileNotFound_witness :
    supported "6800" "fluorometer" = true ∧
    sampleFS.readFile "/nonexistent/file.txt" = none ∧
    convert sampleFS "/nonexistent/file.txt" "6800" "fluorometer" =
      (.error .fileNotFound, ["/nonexistent/file.txt"]) :=
  ⟨by decide, by decide,
    convert_missing_file_fails_fileNotFound sampleFS "/nonexistent/file.txt"
      "6800" "fluorometer" (by decide) (by decide)⟩

/-- Claim C5: Conversion is deterministic: the engine is a pure function of
the filesystem contents, path, device and config — two calls on the same
inputs yield identical results (table, warnings and access log alike). -/
theorem convert_deterministic (fs : FS) (path device config : String) :
    convert fs path device config = convert fs path device config := rfl

/-- Claim C4: For every successfully converted log file, the returned
table's row count equals the number of distinct `obs` values the
tokenizer encountered among the file's data lines (`out.obsLog` is that
observation sequence in physical file order, so the count is independent
of how gas-exchange and fluorescence lines interleave), the rows are in
first-seen `obs` order, and every row carries exactly the schema's column
set. -/
theorem convert_table_shape
    (fs : FS) (path device config : String) (schema : Schema)
    (lines : List (List String)) (out : TokSt)
    (hl : lookup device config = .ok schema)
    (hr : fs.readFile path = some lines)
    (ht : runTok lines = .ok out) :
    ∃ tbl, convert fs path device config = (.ok tbl, [path]) ∧
      tbl.rows.length = out.obsLog.dedup.length ∧
      tbl.rows.map (·.obs) = firstSeen out.obsLog ∧
      tbl.colNames = schema.cols.map (·.name) ∧
      ∀ row ∈ tbl.rows, row.cells.map (·.1) = schema.cols.map (·.name) := by
  have hinv := runTok_obs_inv ht
  refine ⟨⟨schema.cols.map (·.name), (build schema out.recs).1,
    out.warns ++ (build schema out.recs).2⟩, ?_, ?_, ?_, rfl, ?_⟩
  · simp only [convert, hl, hr, ht]
  · have h1 : ((build schema out.recs).1).length = out.recs.length :=
      build_length schema out.recs
    have h2 : out.recs.length = (firstSeen out.obsLog).length := by
      have := congrArg List.length hinv
      simpa using this
    rw [h1, h2, firstSeen_length_eq_dedup_length]
  · rw [build_rows_obs, hinv]
  · intro row hrow
    simp only [build, List.map_map] at hrow
    obtain ⟨r, _, rfl⟩ := List.mem_map.mp hrow
    exact buildRow_cell_names schema r

theorem convert_table_shape_witness :
    lookup "6800" "fluorometer" = .ok schema6800Fluorometer ∧
    sampleFS.readFile samplePath = some sampleLogLines ∧
    runTok sampleLogLines = .ok sampleTokSt ∧
    ∃ tbl, convert sampleFS samplePath "6800" "fluorometer" =
        (.ok tbl, [samplePath]) ∧
      tbl.rows.length = sampleTokSt.obsLog.dedup.length ∧
      tbl.rows.map (·.obs) = firstSeen sampleTokSt.obsLog ∧
      tbl.colNames = schema6800Fluorometer.cols.map (·.name) ∧
      ∀ row ∈ tbl.rows,
        row.cells.map (·.1) = schema6800Fluorometer.cols.map (·.name) :=
  ⟨by decide, by decide, by decide,
    convert_table_shape sampleFS samplePath "6800" "fluorometer"
      schema6800Fluorometer sampleLogLines sampleTokSt
      (by decide) (by decide) (by decide)⟩

/-- Claim C6: Converting the sample log
`...logdata_flr_kinetics_and_gas_ex1` with device "6800" and config
"fluorometer" succeeds, returns the table `sampleTable` with an `obs`
column, positive height and width, and all the gas-exchange columns `A`,
`E`, `Ca`, `Ci`, `gsw` and fluorescence columns `PhiPS2`, `ETR`, `NPQ` of
that log's schema. -/
theorem sample_log_conversion_scenario :
    convert sampleFS samplePath "6800" "fluorometer" =
      (.ok sampleTable, [samplePath]) ∧
    "obs" ∈ sampleTable.colNames ∧
    0 < sampleTable.rows.length ∧
    0 < sampleTable.colNames.length ∧
    ∀ c ∈ ["A", "E", "Ca", "Ci", "gsw", "PhiPS2", "ETR", "NPQ"],
      c ∈ sampleTable.colNames := by
  refine ⟨by decide, by decide, by decide, by decide, by decide⟩

/-- Claim C7: For every requested output representation outside
{"polars", "pandas"}, `file_to_dataframe` fails with
`UnsupportedOutputFormat`, and this error arises only at the Output
Adapter boundary: whenever the core conversion itself fails, its error is
never `UnsupportedOutputFormat`. -/
theorem unsupported_format_only_at_adapter
    (fs : FS) (path device config format : String)
    (hfmt : format ≠ "polars" ∧ format ≠ "pandas") :
    (∀ t log, convert fs path device config = (.ok t, log) →
      file_to_dataframe fs path format device config =
        (.error .unsupportedOutputFormat, log)) ∧
    (∀ e log, convert fs path device config = (.error e, log) →
      e ≠ .unsupportedOutputFormat) := by
  constructor
  · intro t log hconv
    unfold file_to_dataframe
    rw [hconv]
    simp [toDataFrame, hfmt.1, hfmt.2]
  · intro e log hconv
    exact convert_error_kind hconv

theorem unsupported_format_only_at_adapter_witness :
    ("invalid_format" ≠ "polars" ∧ "invalid_format" ≠ "pandas") ∧
    file_to_dataframe sampleFS samplePath "invalid_format" "6800"
      "fluorometer" = (.error .unsupportedOutputFormat, [samplePath]) :=
  ⟨⟨by decide, by decide⟩,
    (unsupported_format_only_at_adapter sampleFS samplePath "6800"
      "fluorometer" "invalid_format" ⟨by decide, by decide⟩).1
      sampleTable [samplePath] (by decide)⟩

/-- Claim C10: Converting the sample fluorometer log to a "pandas"
dataframe succeeds, yields a dataframe with an `obs` column and at least
one row and one column, and mirrors the "polars" output exactly. -/
theorem sample_pandas_mirrors_polars :
    file_to_dataframe sampleFS samplePath "pandas" "6800" "fluorometer" =
      (.ok sampleTable, [samplePath]) ∧
    "obs" ∈ sampleTable.colNames ∧
    0 < sampleTable.rows.length ∧
    0 < sampleTable.colNames.length ∧
    file_to_dataframe sampleFS samplePath "pandas" "6800" "fluorometer" =
      file_to_dataframe sampleFS samplePath "polars" "6800" "fluorometer" := by
  refine ⟨by decide, by decide, by decide, by decide, by decide⟩

/-- Claim C8: A data line with fewer fields than the currently active
in-file layout is not fatal: the tokenizer still emits a (new) record for
that observation, the missing trailing fields are recorded as absent and
the built row carries null cells for the matching schema columns, and one
non-fatal coercion warning per missing trailing field is recorded. -/
theorem short_data_line_non_fatal
    (st : TokSt) (schema : Schema) (toks : List String) (t0 : String)
    (o : Int)
    (hstate : st.state = .data)
    (hlay : st.gasLayout.isEmpty = false)
    (hnodup : st.gasLayout.Nodup)
    (ht : toks.head? = some t0)
    (hp : parseInt? t0 = some o)
    (hfresh : o ∉ st.recs.map (·.obs))
    (hshort : toks.length < st.gasLayout.length) :
    ∃ st', step st ("GasEx:" :: toks) = .ok st' ∧
      st'.recs = st.recs ++ [mkRec o true (padZip st.gasLayout toks)] ∧
      ((build schema st'.recs).1).map (·.obs) =
        st.recs.map (·.obs) ++ [o] ∧
      st'.warns = st.warns ++
        (st.gasLayout.drop toks.length).map
          (fun c => Warning.fieldCoercion o c) ++
        monoWarns st.lastObs o ∧
      st.gasLayout.drop toks.length ≠ [] ∧
      (∀ c ∈ schema.cols, c.name ≠ "obs" → c.source = .gasExchange →
        c.name ∈ st.gasLayout.drop toks.length →
        (c.name, (none : Option Value)) ∈
          (buildRow schema (mkRec o true (padZip st.gasLayout toks))).1.cells) := by
  have hstep := step_data_gasEx toks hstate
  have hds := dataStep_fresh { st with lineNo := st.lineNo + 1 }
    true st.gasLayout toks hlay ht hp (by simpa using hfresh)
  refine ⟨_, by rw [hstep]; exact hds, rfl, ?_, rfl, ?_, ?_⟩
  · rw [build_rows_obs]
    simp [mkRec_obs]
  · apply List.ne_nil_of_length_pos
    rw [List.length_drop]
    omega
  · intro c hc hn hs hmem
    have hsplit :
        st.gasLayout.take toks.length ++ st.gasLayout.drop toks.length =
          st.gasLayout := List.take_append_drop _ _
    have hnd :
        (st.gasLayout.take toks.length ++
          st.gasLayout.drop toks.length).Nodup := by
      rw [hsplit]; exact hnodup
    have hdisj := (List.nodup_append.mp hnd).2.2
    have htake : c.name ∉ st.gasLayout.take toks.length :=
      fun htk => hdisj htk hmem
    have hmemlay : c.name ∈ st.gasLayout := by
      rw [← hsplit]
      exact List.mem_append_right _ hmem
    have hlf := lookupField_padZip_none htake hmemlay
    have hcell : cellOf (mkRec o true (padZip st.gasLayout toks)) c =
        (none, []) :=
      cellOf_null hn hs rfl hlf
    have := buildRow_cell_mem (mkRec o true (padZip st.gasLayout toks)) hc
    rw [hcell] at this
    exact this

theorem short_data_line_non_fatal_witness :
    ((⟨.data, ["obs", "A", "E"], [], [], [], [], none, 6⟩ : TokSt).state =
        .data ∧
      (["obs", "A", "E"] : List String).isEmpty = false ∧
      (["obs", "A", "E"] : List String).Nodup ∧
      (["7", "1.5"] : List String).head? = some "7" ∧
      parseInt? "7" = some 7 ∧
      (7 : Int) ∉
        ((⟨.data, ["obs", "A", "E"], [], [], [], [], none, 6⟩ :
          TokSt).recs.map (·.obs)) ∧
      (["7", "1.5"] : List String).length <
        (["obs", "A", "E"] : List String).length) ∧
    (∃ st',
      step (⟨.data, ["obs", "A", "E"], [], [], [], [], none, 6⟩ : TokSt)
          ("GasEx:" :: ["7", "1.5"]) = .ok st' ∧
      st'.recs =
        (⟨.data, ["obs", "A", "E"], [], [], [], [], none, 6⟩ :
          TokSt).recs ++
          [mkRec 7 true (padZip ["obs", "A", "E"] ["7", "1.5"])] ∧
      ((build schema6800Fluorometer st'.recs).1).map (·.obs) =
        (⟨.data, ["obs", "A", "E"], [], [], [], [], none, 6⟩ :
          TokSt).recs.map (·.obs) ++ [7] ∧
      st'.warns =
        (⟨.data, ["obs", "A", "E"], [], [], [], [], none, 6⟩ :
          TokSt).warns ++
          ((["obs", "A", "E"] : List String).drop
            (["7", "1.5"] : List String).length).map
            (fun c => Warning.fieldCoercion 7 c) ++
          monoWarns none 7 ∧
      (["obs", "A", "E"] : List String).drop
        (["7", "1.5"] : List String).length ≠ [] ∧
      (∀ c ∈ schema6800Fluorometer.cols, c.name ≠ "obs" →
        c.source = .gasExchange →
        c.name ∈ (["obs", "A", "E"] : List String).drop
          (["7", "1.5"] : List String).length →
        (c.name, (none : Option Value)) ∈
          (buildRow schema6800Fluorometer
            (mkRec 7 true
              (padZip ["obs", "A", "E"] ["7", "1.5"]))).1.cells)) :=
  ⟨⟨rfl, by decide, by decide, rfl, by decide, by decide, by decide⟩,
    short_data_line_non_fatal
      (⟨.data, ["obs", "A", "E"], [], [], [], [], none, 6⟩ : TokSt)
      schema6800Fluorometer ["7", "1.5"] "7" 7 rfl (by decide) (by decide)
      rfl (by decide) (by decide) (by decide)⟩

/-- Claim C9: Every successful call to the file-writing `convert` leaves a
file at the requested output path, and that file is non-empty (its size
is strictly positive). -/
theorem convert_output_exists_nonempty
    (fs : FS) (path output device config : String) (fs' : FS)
    (log : List String)
    (h : convertFile fs path output device config = (.ok fs', log)) :
    ∃ content, fs'.readFile output = some content ∧ 0 < fileSize content := by
  unfold convertFile at h
  rcases hc : convert fs path device config with ⟨res, acc⟩
  rw [hc] at h
  cases res with
  | error e => simp at h
  | ok t =>
    simp only [Prod.mk.injEq] at h
    obtain ⟨h1, _⟩ := h
    have hfs : fs' = fs.write output (serializeTable t) :=
      (Except.ok.inj h1).symm
    subst hfs
    refine ⟨serializeTable t, FS.readFile_write_self fs output _, ?_⟩
    simp only [serializeTable, fileSize, List.map_cons, List.sum_cons]
    omega

theorem convert_output_exists_nonempty_witness :
    convertFile sampleFS samplePath "out.parquet" "6800" "fluorometer" =
      (.ok (sampleFS.write "out.parquet" (serializeTable sampleTable)),
        [samplePath]) ∧
    ∃ content,
      (sampleFS.write "out.parquet"
        (serializeTable sampleTable)).readFile "out.parquet" =
          some content ∧ 0 < fileSize content :=
  ⟨by decide,
    convert_output_exists_nonempty sampleFS samplePath "out.parquet"
      "6800" "fluorometer"
      (sampleFS.write "out.parquet" (serializeTable sampleTable))
      [samplePath] (by decide)⟩

end Licor
